import Mathlib

/-!
Verification of the Pointer Arithmetic Demonstrator of `src/day-1/ptrs.c`.

The live code of `main` (lines 32-36) is:

    int arr[] = {10,20,30,40};
    int* ptr = arr;            // ptr points to arr[0]
    printf("%d\n",*ptr);       // prints 10
    ptr++;
    printf("%d\n",*ptr);       // prints 20

The state is embedded exactly as the C program holds it: the buffer `arr`
(a list of machine integers), its base address, and the cursor `ptr` as a
raw numeric address.  C pointer arithmetic on an `int*` is scaled by
`sizeof(int)`, which is 4 bytes on the demonstrated platform, so `ptr++`
adds 4 to the raw address.  The element index referenced by the cursor is
the C pointer difference `ptr - arr`, i.e. the byte offset divided by the
element width.
-/

namespace Ptrs

/-- Byte width of one buffer element: `sizeof(int)` on the demonstrated
platform.  The array in the source is an `int` array and `ptr++` moves the
raw address by `sizeof(int) = 4` bytes, as the source's own commentary notes
(`uint32_t* words; words++; // Moves to 0x1004 (adds 4 bytes)`). -/
def elemWidth : Nat := 4

/-- Program state of the demonstrator: the buffer `arr`, its base address,
and the cursor `ptr` held as a raw numeric address, exactly as the C program
holds it. -/
structure State where
  base : Nat
  buf : List Int
  addr : Nat
deriving DecidableEq, Repr

/-- Only error kind of the safe demonstrator. -/
inductive Err where
  | OutOfBounds
deriving DecidableEq, Repr

/-- The element index currently referenced by the cursor: the C pointer
difference `ptr - arr`, i.e. the byte offset divided by the element width
(the source notes this division: `int count = end - start; ...
(0x2000-0x1000)/sizeof(uint32_t)`). -/
def index (s : State) : Nat := (s.addr - s.base) / elemWidth

/-- The numeric address of the element currently referenced by the cursor,
as `printf("%p", ptr)` would display it. -/
def read_address (s : State) : Nat := s.addr

/-- The value stored at the element referenced by the cursor (`*ptr`).
Modelled from the spec: the C source performs the unchecked dereference
`*ptr`; the OutOfBounds rejection of an out-of-range cursor is the spec's
safe reimplementation of that dereference. -/
def read_value (s : State) : Except Err Int :=
  if h : index s < s.buf.length then .ok (s.buf.get ⟨index s, h⟩)
  else .error .OutOfBounds

/-- `ptr++`: moves the cursor address forward by one element width
(`sizeof(int)` bytes), as C pointer arithmetic scales by the pointee size.
Modelled from the spec: advancing past the last valid index fails with
OutOfBounds instead of silently leaving the buffer, which is the spec's safe
reimplementation of the source's unchecked increment. -/
def advance (s : State) : Except Err State :=
  if index s + 1 < s.buf.length then .ok { s with addr := s.addr + elemWidth }
  else .error .OutOfBounds

/-- `*ptr = v`: overwrites the element at the cursor's position.
Modelled from the spec: the write through the cursor appears only in the
source's commented-out code (`*ptr = 100;`); the OutOfBounds rejection is the
spec's safe reimplementation. -/
def write_value (s : State) (v : Int) : Except Err State :=
  if index s < s.buf.length then .ok { s with buf := s.buf.set (index s) v }
  else .error .OutOfBounds

/-- `read_value` in the uniform stateful signature: it returns the value
together with the (unchanged) state, since reading `*ptr` modifies neither
the buffer nor the cursor. -/
def read_value_op (s : State) : Except Err (Int × State) :=
  (read_value s).map (fun v => (v, s))

/-- `read_address` in the uniform stateful signature. -/
def read_address_op (s : State) : Except Err (Nat × State) :=
  .ok (read_address s, s)

/-- One printed line of the demonstration: either a dereferenced value
(`printf("%d\n", *ptr)`) or a raw address (`printf("%p\n", ptr)`). -/
inductive Line where
  | value (v : Int)
  | address (a : Nat)
deriving DecidableEq, Repr

/-- Whether a printed line is a raw-address line. -/
def isAddress : Line → Bool
  | .value _ => false
  | .address _ => true

/-- The buffer contents at initialization: `int arr[] = {10,20,30,40};`. -/
def arrInit : List Int := [10, 20, 30, 40]

/-- Initial state of `main`: `arr` at some base address, `ptr = arr`
(the cursor at the base, i.e. index 0). -/
def s0 (base : Nat) : State := ⟨base, arrInit, base⟩

/-- The live statements of `main` (lines 32-36 of `src/day-1/ptrs.c`):
print `*ptr`, then `ptr++`, then print `*ptr`; returns the printed lines and
the final state. -/
def mainRun (base : Nat) : Except Err (List Line × State) := do
  let s := s0 base
  let v1 ← read_value s
  let s1 ← advance s
  let v2 ← read_value s1
  .ok ([Line.value v1, Line.value v2], s1)

/-- `n` successive `read_value` calls with no intervening operation,
threading the state through each call. -/
def repeatRead : Nat → State → Except Err (List Int × State)
  | 0, s => .ok ([], s)
  | n + 1, s => do
    let (v, s1) ← read_value_op s
    let (vs, s2) ← repeatRead n s1
    .ok (v :: vs, s2)

/-- The spec's invariant: the cursor's effective address equals the buffer's
base address plus the cursor's index times the element width. -/
def Inv (s : State) : Prop := s.addr = s.base + index s * elemWidth

lemma index_s0 (b : Nat) : index (s0 b) = 0 := by
  simp [index, s0]

lemma index_mk (b k : Nat) (l : List Int) :
    index ⟨b, l, b + k⟩ = k / elemWidth := by
  simp [index]

end Ptrs

namespace Ptrs

lemma index_mk_self (b : Nat) (l : List Int) : index ⟨b, l, b⟩ = 0 := by
  simp [index]

lemma adv0 (b : Nat) : advance (s0 b) = .ok ⟨b, arrInit, b + 4⟩ := by
  simp [advance, s0, arrInit, index_mk_self, elemWidth]

lemma adv1 (b : Nat) : advance ⟨b, arrInit, b + 4⟩ = .ok ⟨b, arrInit, b + 8⟩ := by
  simp [advance, arrInit, index_mk, elemWidth]

lemma adv2 (b : Nat) : advance ⟨b, arrInit, b + 8⟩ = .ok ⟨b, arrInit, b + 12⟩ := by
  simp [advance, arrInit, index_mk, elemWidth]

lemma adv3 (b : Nat) : advance ⟨b, arrInit, b + 12⟩ = .error .OutOfBounds := by
  simp [advance, arrInit, index_mk, elemWidth]

lemma rv0 (b : Nat) : read_value (s0 b) = .ok 10 := by
  simp [read_value, s0, arrInit, index_mk_self]

lemma rv1 (b : Nat) : read_value ⟨b, arrInit, b + 4⟩ = .ok 20 := by
  simp [read_value, arrInit, index_mk, elemWidth]

lemma mainRun_eq (b : Nat) :
    mainRun b = .ok ([Line.value 10, Line.value 20], ⟨b, arrInit, b + 4⟩) := by
  simp only [mainRun, rv0, adv0, rv1, bind, Except.bind]

lemma repeatRead_const (s : State) (v : Int) (hv : read_value s = .ok v)
    (n : Nat) : repeatRead n s = .ok (List.replicate n v, s) := by
  induction n with
  | zero => simp [repeatRead]
  | succ n ih =>
    simp [repeatRead, read_value_op, hv, Except.map, bind, Except.bind, ih,
      List.replicate]

lemma write_value_pos (s : State) (v : Int) (h : index s < s.buf.length) :
    write_value s v = .ok { s with buf := s.buf.set (index s) v } := by
  simp [write_value, h]

lemma read_value_of_set (s : State) (v : Int) (h : index s < s.buf.length) :
    read_value { s with buf := s.buf.set (index s) v } = .ok v := by
  have hlen : index { s with buf := s.buf.set (index s) v } = index s := by
    simp [index]
  rw [read_value, dif_pos (by simpa [hlen] using h)]
  simp [hlen, List.get_eq_getElem, List.getElem_set_self]

/-- C1: for every cursor position, a successful `advance` changes the
cursor's numeric address by exactly one element's byte width (`elemWidth`),
never by one raw byte: `read_address` after equals `read_address` before
plus the element width, and in particular differs from before plus one. -/
theorem advance_changes_address_by_elemWidth (s s' : State)
    (h : advance s = .ok s') :
    read_address s' = read_address s + elemWidth ∧
    read_address s' ≠ read_address s + 1 := by
  unfold advance at h
  split at h
  · cases h
    refine ⟨rfl, ?_⟩
    simp [read_address, elemWidth]
  · cases h

/-- Witness for C1 at the concrete initial state with base address 0. -/
theorem advance_changes_address_by_elemWidth_witness :
    read_address ⟨0, arrInit, 4⟩ = read_address (s0 0) + elemWidth ∧
    read_address ⟨0, arrInit, 4⟩ ≠ read_address (s0 0) + 1 :=
  advance_changes_address_by_elemWidth (s0 0) ⟨0, arrInit, 4⟩ rfl

/-- C2: at every reachable state, the cursor's effective address equals the
buffer's base address plus the cursor's index times the element width: the
invariant holds at every initial state and is preserved by `advance` and
`write_value`, while `read_value` and `read_address` return the state
unchanged. -/
theorem cursor_address_invariant :
    (∀ b, Inv (s0 b)) ∧
    (∀ s s', Inv s → advance s = .ok s' → Inv s') ∧
    (∀ s v s', Inv s → write_value s v = .ok s' → Inv s') ∧
    (∀ s v s', Inv s → read_value_op s = .ok (v, s') → Inv s' ∧ s' = s) ∧
    (∀ s a s', Inv s → read_address_op s = .ok (a, s') → Inv s' ∧ s' = s) := by
  refine ⟨?_, ?_, ?_, ?_, ?_⟩
  · intro b
    simp [Inv, s0, index]
  · intro s s' hI h
    unfold advance at h
    split at h
    · cases h
      simp only [Inv, index, elemWidth] at *
      omega
    · cases h
  · intro s v s' hI h
    unfold write_value at h
    split at h
    · cases h
      simp only [Inv, index, elemWidth] at *
      simpa using hI
    · cases h
  · intro s v s' hI h
    unfold read_value_op at h
    cases hr : read_value s with
    | ok w =>
      rw [hr] at h
      simp only [Except.map, Except.ok.injEq, Prod.mk.injEq] at h
      exact ⟨h.2 ▸ hI, h.2.symm⟩
    | error e =>
      rw [hr] at h
      simp [Except.map] at h
  · intro s a s' hI h
    simp only [read_address_op, Except.ok.injEq, Prod.mk.injEq] at h
    exact ⟨h.2 ▸ hI, h.2.symm⟩

/-- Witness for C2: the invariant transported through a concrete `advance`
and a concrete `write_value` from the initial state with base address 0. -/
theorem cursor_address_invariant_witness :
    Inv (State.mk 0 arrInit 4) ∧ Inv (State.mk 0 [100, 20, 30, 40] 0) :=
  ⟨cursor_address_invariant.2.1 (s0 0) ⟨0, arrInit, 4⟩
    (cursor_address_invariant.1 0) rfl,
   cursor_address_invariant.2.2.1 (s0 0) 100 ⟨0, [100, 20, 30, 40], 0⟩
    (cursor_address_invariant.1 0) rfl⟩

/-- C3: from the initial state (cursor at index 0 over the 4-element
buffer), four successive `advance` calls fail with OutOfBounds rather than
returning a state; and `advance` raises OutOfBounds exactly when it would
position the cursor outside the buffer's valid index range. -/
theorem advance_four_times_out_of_bounds :
    (∀ b, (((advance (s0 b)).bind advance).bind advance).bind advance
      = .error .OutOfBounds) ∧
    (∀ s : State,
      advance s = .error .OutOfBounds ↔ ¬ (index s + 1 < s.buf.length)) := by
  constructor
  · intro b
    rw [adv0]
    simp [Except.bind, adv1, adv2, adv3]
  · intro s
    unfold advance
    split <;> simp_all

/-- C4: with the buffer initialized to [10, 20, 30, 40] and the cursor at
index 0, `read_value` returns 10. -/
theorem read_value_initial_is_ten (b : Nat) :
    (s0 b).buf = [10, 20, 30, 40] ∧ index (s0 b) = 0 ∧
    read_value (s0 b) = .ok 10 :=
  ⟨rfl, index_s0 b, rv0 b⟩

/-- C5: from the initial state over [10, 20, 30, 40], after exactly one
`advance` the cursor is at index 1 and `read_value` returns 20. -/
theorem advance_once_reads_twenty (b : Nat) :
    ∃ s1, advance (s0 b) = .ok s1 ∧ index s1 = 1 ∧
      read_value s1 = .ok 20 := by
  refine ⟨⟨b, arrInit, b + 4⟩, adv0 b, ?_, rv1 b⟩
  simp [index_mk, elemWidth]

/-- C6: for every in-bounds cursor position and every integer `v`,
`write_value v` overwrites the element at the cursor's position with `v`,
the cursor stays at the same index, and the mutation is visible to and
persists for every number of subsequent `read_value` calls there. -/
theorem write_value_mutation_visible (s : State) (v : Int)
    (h : index s < s.buf.length) :
    ∃ s', write_value s v = .ok s' ∧ index s' = index s ∧
      s'.buf = s.buf.set (index s) v ∧ read_value s' = .ok v ∧
      ∀ n, repeatRead n s' = .ok (List.replicate n v, s') := by
  refine ⟨{ s with buf := s.buf.set (index s) v }, write_value_pos s v h,
    ?_, rfl, read_value_of_set s v h, fun n => ?_⟩
  · simp [index]
  · exact repeatRead_const _ v (read_value_of_set s v h) n

/-- Witness for C6: `write_value 100` at index 0 of the initial state with
base address 0, after which `read_value` at index 0 returns 100. -/
theorem write_value_mutation_visible_witness :
    ∃ s', write_value (s0 0) 100 = .ok s' ∧ index s' = index (s0 0) ∧
      s'.buf = (s0 0).buf.set (index (s0 0)) 100 ∧
      read_value s' = .ok 100 ∧
      ∀ n, repeatRead n s' = .ok (List.replicate n 100, s') :=
  write_value_mutation_visible (s0 0) 100 (by decide)

/-- C7 counterexample: at base address 4096 the demonstration run prints
two lines, and the second printed line is the dereferenced value 20, not
the raw address of the cursor, so the run's output is not of the form
value-then-address the claim requires. -/
theorem mainRun_second_line_not_address :
    mainRun 4096 = .ok ([Line.value 10, Line.value 20], ⟨4096, arrInit, 4100⟩) ∧
    Line.value 20 ≠ Line.address (read_address ⟨4096, arrInit, 4100⟩) ∧
    isAddress (Line.value 20) = false := by
  refine ⟨rfl, ?_, rfl⟩
  simp

/-- C7 amended: each demonstration run produces exactly two printed lines,
both dereferenced values at the cursor — 10 before the increment and 20
after it — and no raw-address line is printed. -/
theorem mainRun_prints_two_value_lines (b : Nat) :
    mainRun b = .ok ([Line.value 10, Line.value 20], ⟨b, arrInit, b + elemWidth⟩) ∧
    ([Line.value 10, Line.value 20].filter isAddress) = [] := by
  refine ⟨?_, rfl⟩
  simpa [elemWidth] using mainRun_eq b

/-- C8: `read_value` has no side effects: any number of repeated
`read_value` calls with no intervening operation all return the same value
and leave the buffer and cursor (the whole state) unchanged. -/
theorem read_value_no_side_effects (s : State) (v : Int) (n : Nat)
    (h : read_value s = .ok v) :
    read_value_op s = .ok (v, s) ∧
    repeatRead n s = .ok (List.replicate n v, s) :=
  ⟨by simp [read_value_op, h, Except.map], repeatRead_const s v h n⟩

/-- Witness for C8 at the initial state with base address 0: three repeated
reads all return 10 and leave the state unchanged. -/
theorem read_value_no_side_effects_witness :
    read_value_op (s0 0) = .ok (10, s0 0) ∧
    repeatRead 3 (s0 0) = .ok (List.replicate 3 10, s0 0) :=
  read_value_no_side_effects (s0 0) 10 3 rfl

/-- C9: the live program never writes through the cursor: the buffer holds
[10, 20, 30, 40] in the initial state, in the state after the single
increment, and in the final state of the run. -/
theorem mainRun_buffer_unchanged (b : Nat) :
    (s0 b).buf = [10, 20, 30, 40] ∧
    advance (s0 b) = .ok ⟨b, [10, 20, 30, 40], b + elemWidth⟩ ∧
    mainRun b = .ok ([Line.value 10, Line.value 20],
      ⟨b, [10, 20, 30, 40], b + elemWidth⟩) := by
  refine ⟨rfl, ?_, ?_⟩
  · simpa [elemWidth, arrInit] using adv0 b
  · simpa [elemWidth, arrInit] using mainRun_eq b

/-- C10: every dereference performed by the program is at a valid index of
the 4-element buffer — index 0 for the first read and index 1 after the
single increment — so the whole run succeeds and the OutOfBounds branch is
unreachable for this program. -/
theorem mainRun_dereferences_in_bounds (b : Nat) :
    index (s0 b) = 0 ∧ read_value (s0 b) = .ok 10 ∧
    advance (s0 b) = .ok ⟨b, arrInit, b + elemWidth⟩ ∧
    index ⟨b, arrInit, b + elemWidth⟩ = 1 ∧
    read_value ⟨b, arrInit, b + elemWidth⟩ = .ok 20 ∧
    ∃ out, mainRun b = .ok out := by
  refine ⟨index_s0 b, rv0 b, ?_, ?_, ?_, ?_⟩
  · simpa [elemWidth] using adv0 b
  · simp [index_mk, elemWidth]
  · simpa [elemWidth] using rv1 b
  · exact ⟨_, mainRun_eq b⟩

end Ptrs
